import Mathlib

/-!
Shallow embedding of the OFTI rejection sampler of `src/orbitize/sampler.py`
(class `OFTI`): construction (`__init__`, lines 46-63), candidate generation
(`prepare_samples`, lines 65-130), rejection (`reject`, lines 133-180) and the
accumulation loop (`run_sampler`, lines 183-212).

Modelling conventions:
* numpy float arrays become functions into `ℝ`; a batch of N candidate
  orbital-element vectors (numpy shape `(8, N)`, parameters as rows) becomes
  `Fin 8 → Fin N → ℝ`, an accepted orbit row becomes `Vec8 = Fin 8 → ℝ`.
* The external collaborators that are not part of `src/` - the Kepler
  propagator `orbitize.kepler.calc_orbit` composed with
  `orbitize.system.radec2seppa`, the prior draws, and the chi-square kernel
  `orbitize.lnlike.chi2_lnlike` - enter as explicit function parameters
  (`prop`, the drawn rows, `chi2fn`).  Random draws (`np.random.uniform`,
  `np.random.normal`, `np.random.random`) enter as explicit inputs; a call
  `np.random.normal(0, sigma)` is modelled as `sigma * z` with `z` the unit
  normal draw, so that the standard deviation used by the code is visible.
* NaN values flowing through `np.nansum` are modelled as `Option ℝ` with
  `none` for NaN; `np.nansum` is the sum of `Option.getD 0`.
* numpy out-of-bounds assignment `output_orbits[n] = orbit` raises
  `IndexError`; the store writer below returns `Except.error` in that case.
-/

namespace Orbitize

/-- One orbital-element vector, in the row order of `sampler.py` line 90:
sma, ecc, argp, lan, inc, tau, mtot, plx. -/
abbrev Vec8 := Fin 8 → ℝ

/-- `np.radians`: degrees to radians. -/
noncomputable def radiansOf (d : ℝ) : ℝ := d * (Real.pi / 180)

/-- Radians to degrees (used by the modelled propagator, whose position angle
output is in degrees as `radec2seppa`'s is). -/
noncomputable def degreesOf (r : ℝ) : ℝ := r * (180 / Real.pi)

/-- numpy's floating `%` (floored modulus, sign of the divisor):
`x % y = x - y * floor (x / y)`.  Used at line 115, `lan = lan % (2*np.pi)`. -/
noncomputable def npmod (x y : ℝ) : ℝ := x - y * (⌊x / y⌋ : ℝ)

/-- `np.argmin` over a nonempty vector: the first index attaining the minimum
(`List.argmin` keeps the earliest element on ties, as numpy does). -/
noncomputable def argminIdx {n : ℕ} (f : Fin (n + 1) → ℝ) : Fin (n + 1) :=
  ((List.finRange (n + 1)).argmin f).getD 0

/-- The observation-table state an `OFTI` instance carries after `__init__`
(lines 55-63): observed separations / position angles, their uncertainties
(all after radec→seppa conversion of the radec-native rows) and the epochs
(column 0 of the table, read at lines 84 and 145). -/
structure OFTIState (nE : ℕ) where
  sep_observed : Fin nE → ℝ
  pa_observed : Fin nE → ℝ
  sep_err : Fin nE → ℝ
  pa_err : Fin nE → ℝ
  epochs : Fin nE → ℝ

/-- The per-call random inputs of `prepare_samples`:
`draws i` is row `i` of `samples` as filled at lines 80-82 from
`self.priors[i].draw_samples(num_samples)`; `meananno` is the
`np.random.uniform(size=num_samples)` draw of line 96; `z_sep`, `z_pa` are the
unit normal draws behind the two scalar `np.random.normal(0, err)` calls of
lines 105-106 (the offset is `err * z`). -/
structure PrepInputs (N : ℕ) where
  draws : Fin 8 → Fin N → ℝ
  meananno : Fin N → ℝ
  z_sep : ℝ
  z_pa : ℝ

/-- Line 92-93: `period_prescale = sqrt(4 pi^2 (sma AU)^3 / (G mtot Msun))`
in days.  The Kepler-third-law period function itself (`per`) is a parameter
of the embedding: the code builds it from astropy units and constants, and
every claim below holds for an arbitrary `per`. -/
noncomputable def period_prescale {N : ℕ} (per : ℝ → ℝ → ℝ) (inp : PrepInputs N)
    (j : Fin N) : ℝ :=
  per (inp.draws 0 j) (inp.draws 6 j)

/-- Line 98: `tau = epochs[epoch_idx]/period_prescale - meananno`
(the provisional time-of-periastron used for the first propagation). -/
noncomputable def tau_prescale {N : ℕ} (per : ℝ → ℝ → ℝ) (t : ℝ)
    (inp : PrepInputs N) (j : Fin N) : ℝ :=
  t / period_prescale per inp j - inp.meananno j

/-- The element vector handed to `calc_orbit` at line 101: the prior draws
with the tau row replaced by the provisional tau of line 98 (the drawn tau row
is never read by `prepare_samples`). -/
noncomputable def provisionalVec {N : ℕ} (per : ℝ → ℝ → ℝ) (t : ℝ)
    (inp : PrepInputs N) (j : Fin N) : Vec8 :=
  fun i => if i = 5 then tau_prescale per t inp j else inp.draws i j

/-- Line 101-102: predicted separation of candidate `j` at the anchor epoch,
through the external propagator + radec→seppa conversion `prop`. -/
noncomputable def predSep {N : ℕ} (per : ℝ → ℝ → ℝ) (prop : ℝ → Vec8 → ℝ × ℝ)
    (t : ℝ) (inp : PrepInputs N) (j : Fin N) : ℝ :=
  (prop t (provisionalVec per t inp j)).1

/-- Line 101-102: predicted position angle of candidate `j` at the anchor
epoch (degrees). -/
noncomputable def predPa {N : ℕ} (per : ℝ → ℝ → ℝ) (prop : ℝ → Vec8 → ℝ × ℝ)
    (t : ℝ) (inp : PrepInputs N) (j : Fin N) : ℝ :=
  (prop t (provisionalVec per t inp j)).2

/-- Line 105: `sep_offset = np.random.normal(0, self.sep_err[epoch_idx])`,
a single scalar shared by the whole batch. -/
noncomputable def sep_offset {m N : ℕ} (s : OFTIState (m + 1)) (a : Fin (m + 1))
    (inp : PrepInputs N) : ℝ :=
  s.sep_err a * inp.z_sep

/-- Line 106: `pa_offset = np.random.normal(0, self.pa_err[epoch_idx])`,
a single scalar shared by the whole batch. -/
noncomputable def pa_offset {m N : ℕ} (s : OFTIState (m + 1)) (a : Fin (m + 1))
    (inp : PrepInputs N) : ℝ :=
  s.pa_err a * inp.z_pa

/-- Line 109: `sma_corr = (sep_offset + sep_observed[epoch_idx]) / sep`. -/
noncomputable def sma_corr {m N : ℕ} (per : ℝ → ℝ → ℝ) (prop : ℝ → Vec8 → ℝ × ℝ)
    (a : Fin (m + 1)) (s : OFTIState (m + 1)) (inp : PrepInputs N) (j : Fin N) : ℝ :=
  (sep_offset s a inp + s.sep_observed a) / predSep per prop (s.epochs a) inp j

/-- Line 110: `lan_corr = (pa_offset + pa_observed[epoch_idx] - pa)` (degrees). -/
noncomputable def lan_corr {m N : ℕ} (per : ℝ → ℝ → ℝ) (prop : ℝ → Vec8 → ℝ × ℝ)
    (a : Fin (m + 1)) (s : OFTIState (m + 1)) (inp : PrepInputs N) (j : Fin N) : ℝ :=
  pa_offset s a inp + s.pa_observed a - predPa per prop (s.epochs a) inp j

/-- Line 113: `sma *= sma_corr`. -/
noncomputable def smaNew {m N : ℕ} (per : ℝ → ℝ → ℝ) (prop : ℝ → Vec8 → ℝ × ℝ)
    (a : Fin (m + 1)) (s : OFTIState (m + 1)) (inp : PrepInputs N) (j : Fin N) : ℝ :=
  inp.draws 0 j * sma_corr per prop a s inp j

/-- Lines 114-115: `lan += np.radians(lan_corr); lan = lan % (2*np.pi)`. -/
noncomputable def lanNew {m N : ℕ} (per : ℝ → ℝ → ℝ) (prop : ℝ → Vec8 → ℝ × ℝ)
    (a : Fin (m + 1)) (s : OFTIState (m + 1)) (inp : PrepInputs N) (j : Fin N) : ℝ :=
  npmod (inp.draws 3 j + radiansOf (lan_corr per prop a s inp j)) (2 * Real.pi)

/-- Lines 117-118: `period_new`, Kepler's third law on the corrected sma. -/
noncomputable def period_new {m N : ℕ} (per : ℝ → ℝ → ℝ) (prop : ℝ → Vec8 → ℝ × ℝ)
    (a : Fin (m + 1)) (s : OFTIState (m + 1)) (inp : PrepInputs N) (j : Fin N) : ℝ :=
  per (smaNew per prop a s inp j) (inp.draws 6 j)

/-- Line 120: `tau = epochs[epoch_idx]/period_new - meananno`
(same `meananno` draws as line 98). -/
noncomputable def tauNew {m N : ℕ} (per : ℝ → ℝ → ℝ) (prop : ℝ → Vec8 → ℝ × ℝ)
    (a : Fin (m + 1)) (s : OFTIState (m + 1)) (inp : PrepInputs N) (j : Fin N) : ℝ :=
  s.epochs a / period_new per prop a s inp j - inp.meananno j

/-- Lines 90-130 of `prepare_samples` with the anchor epoch index `a` as a
parameter: the returned batch is the prior draws with rows 0 (sma), 3 (lan)
and 5 (tau) overwritten by the corrected values (lines 126-128). -/
noncomputable def scaleAndRotate {m N : ℕ} (per : ℝ → ℝ → ℝ)
    (prop : ℝ → Vec8 → ℝ × ℝ) (a : Fin (m + 1)) (s : OFTIState (m + 1))
    (inp : PrepInputs N) : Fin 8 → Fin N → ℝ :=
  fun i j =>
    if i = 0 then smaNew per prop a s inp j
    else if i = 3 then lanNew per prop a s inp j
    else if i = 5 then tauNew per prop a s inp j
    else inp.draws i j

/-- `OFTI.prepare_samples` (lines 65-130): the anchor epoch is recomputed on
every call as `epoch_idx = np.argmin(self.sep_err)` (line 87) over the
instance state fixed at construction. -/
noncomputable def prepare_samples {m N : ℕ} (per : ℝ → ℝ → ℝ)
    (prop : ℝ → Vec8 → ℝ × ℝ) (s : OFTIState (m + 1)) (inp : PrepInputs N) :
    Fin 8 → Fin N → ℝ :=
  scaleAndRotate per prop (argminIdx s.sep_err) s inp

/-- Type of the external `orbitize.lnlike.chi2_lnlike` (line 169): it receives
the observed (sep, pa) pairs, their errors, the per-epoch per-candidate model
predictions and the seppa row indices, and returns the per-epoch, per-quantity,
per-candidate chi-square terms; `none` models a NaN term. -/
def ChiFn (nE N : ℕ) : Type :=
  (Fin nE → ℝ × ℝ) → (Fin nE → ℝ × ℝ) → (Fin nE → Fin N → ℝ × ℝ) → List ℕ →
    Fin nE → Fin 2 → Fin N → Option ℝ

/-- Line 167: `seppa_data = np.column_stack((sep_observed, pa_observed))`. -/
def seppa_data {nE : ℕ} (s : OFTIState nE) : Fin nE → ℝ × ℝ :=
  fun e => (s.sep_observed e, s.pa_observed e)

/-- Line 168: `seppa_errs = np.column_stack((sep_err, pa_err))`. -/
def seppa_errs {nE : ℕ} (s : OFTIState nE) : Fin nE → ℝ × ℝ :=
  fun e => (s.sep_err e, s.pa_err e)

/-- Lines 149-164: every candidate column propagated to every observation
epoch and converted to (sep, pa). -/
noncomputable def seppa_model {nE N : ℕ} (prop : ℝ → Vec8 → ℝ × ℝ)
    (s : OFTIState nE) (cfg : Fin 8 → Fin N → ℝ) : Fin nE → Fin N → ℝ × ℝ :=
  fun e j => prop (s.epochs e) (fun i => cfg i j)

/-- Line 169: the chi-square term array returned by `chi2_lnlike`. -/
noncomputable def chi2Terms {nE N : ℕ} (chi2fn : ChiFn nE N)
    (prop : ℝ → Vec8 → ℝ × ℝ) (sidx : List ℕ) (s : OFTIState nE)
    (cfg : Fin 8 → Fin N → ℝ) : Fin nE → Fin 2 → Fin N → Option ℝ :=
  chi2fn (seppa_data s) (seppa_errs s) (seppa_model prop s cfg) sidx

/-- Line 172: `chi2_sum = np.nansum(chi2, axis=(0,1))` - NaN terms (`none`)
contribute zero. -/
noncomputable def chi2_sum {nE N : ℕ} (chi2fn : ChiFn nE N)
    (prop : ℝ → Vec8 → ℝ × ℝ) (sidx : List ℕ) (s : OFTIState nE)
    (cfg : Fin 8 → Fin N → ℝ) (j : Fin N) : ℝ :=
  ∑ e : Fin nE, ∑ q : Fin 2, (chi2Terms chi2fn prop sidx s cfg e q j).getD 0

/-- Line 173: `lnp = -chi2_sum/2`. -/
noncomputable def lnpOf {nE N : ℕ} (chi2fn : ChiFn nE N)
    (prop : ℝ → Vec8 → ℝ × ℝ) (sidx : List ℕ) (s : OFTIState nE)
    (cfg : Fin 8 → Fin N → ℝ) (j : Fin N) : ℝ :=
  -(chi2_sum chi2fn prop sidx s cfg j) / 2

open Classical in
/-- Lines 176-177: `random_samples = np.log(np.random.random(len(lnp)))`;
`saved_orbit_idx = np.where(lnp > random_samples)[0]` - the indices whose
`lnp` strictly exceeds the log of their own uniform draw, in increasing order
(`np.where` returns increasing indices). -/
noncomputable def saved_orbit_idx {nE N : ℕ} (chi2fn : ChiFn nE N)
    (prop : ℝ → Vec8 → ℝ × ℝ) (sidx : List ℕ) (s : OFTIState nE)
    (uniforms : Fin N → ℝ) (cfg : Fin 8 → Fin N → ℝ) : List (Fin N) :=
  (List.finRange N).filter
    (fun j => decide (Real.log (uniforms j) < lnpOf chi2fn prop sidx s cfg j))

/-- `OFTI.reject` (lines 133-180).  Line 178:
`saved_orbits = np.array([orbit_configs[:,i] for i in saved_orbit_idx])` -
the accepted columns of the input batch, each as an 8-entry row. -/
noncomputable def reject {nE N : ℕ} (prop : ℝ → Vec8 → ℝ × ℝ)
    (chi2fn : ChiFn nE N) (sidx : List ℕ) (s : OFTIState nE)
    (uniforms : Fin N → ℝ) (cfg : Fin 8 → Fin N → ℝ) : List Vec8 :=
  (saved_orbit_idx chi2fn prop sidx s uniforms cfg).map (fun j => fun i => cfg i j)

/-- Lines 208-210: `for orbit in new_orbits: output_orbits[n_orbits_saved] =
orbit; n_orbits_saved += 1`.  The numpy store has `T` rows; an assignment at
an index `>= T` raises `IndexError`, modelled by `Except.error`.  There is no
capacity check in the loop body. -/
def writeOrbits (T : ℕ) : (ℕ → Vec8) → ℕ → List Vec8 → Except String ((ℕ → Vec8) × ℕ)
  | store, n, [] => Except.ok (store, n)
  | store, n, o :: rest =>
      if n < T then writeOrbits T (fun p => if p = n then o else store p) (n + 1) rest
      else Except.error "IndexError: index out of bounds"

/-- The `while n_orbits_saved < total_orbits` loop of lines 201-211, with an
explicit fuel bound (the real loop has no iteration cap; `Except.ok none`
means the fuel ran out with the loop still accumulating).  `batches it` is the
accepted-orbit list returned by `reject(prepare_samples(num_samples))` in
iteration `it` - the composition is randomness-driven, so the per-iteration
results enter as a stream.  An empty result skips the write (lines 205-206,
`if len(new_orbits)==0: None`). -/
def runLoop (T : ℕ) (batches : ℕ → List Vec8) :
    ℕ → ℕ → ℕ → (ℕ → Vec8) → Except String (Option (ℕ → Vec8))
  | 0, _, _, _ => Except.ok none
  | fuel + 1, it, n, store =>
      if n < T then
        let new_orbits := batches it
        if new_orbits.length = 0 then runLoop T batches fuel (it + 1) n store
        else
          match writeOrbits T store n new_orbits with
          | Except.error e => Except.error e
          | Except.ok (store2, n2) => runLoop T batches fuel (it + 1) n2 store2
      else Except.ok (some store)

/-- `OFTI.run_sampler` (lines 183-212): preallocate a `(total_orbits, 8)`
store (`np.empty`, modelled zero-initialised - every row of a successful
result has been written) and run the accumulation loop from zero saved
orbits. -/
def run_sampler (T : ℕ) (batches : ℕ → List Vec8) (fuel : ℕ) :
    Except String (Option (ℕ → Vec8)) :=
  runLoop T batches fuel 0 0 (fun _ _ => 0)

/-- Lines 61-63 of `__init__`: sequential in-place conversion of the
radec-native rows of a (quant1, quant2) column pair via the external
`orbitize.system.radec2seppa`. -/
def convertPairRows {nE : ℕ} (radec2seppa : ℝ → ℝ → ℝ × ℝ)
    (radec_idx : List (Fin nE)) (v w : Fin nE → ℝ) :
    (Fin nE → ℝ) × (Fin nE → ℝ) :=
  radec_idx.foldl
    (fun vw i =>
      (Function.update vw.1 i (radec2seppa (vw.1 i) (vw.2 i)).1,
       Function.update vw.2 i (radec2seppa (vw.1 i) (vw.2 i)).2))
    (v, w)

/-- `OFTI.__init__` (lines 46-63): store the table columns and convert the
radec-native rows (both the observed values, lines 62, and the errors,
line 63) to seppa.  No validation of any kind is performed. -/
def OFTI_init {nE : ℕ} (radec2seppa : ℝ → ℝ → ℝ × ℝ)
    (quant1 quant2 quant1_err quant2_err epochs : Fin nE → ℝ)
    (radec_idx : List (Fin nE)) : OFTIState nE :=
  let so := convertPairRows radec2seppa radec_idx quant1 quant2
  let se := convertPairRows radec2seppa radec_idx quant1_err quant2_err
  ⟨so.1, so.2, se.1, se.2, epochs⟩

/-- An `OFTI` instance: the converted observation state plus the prior list
(`self.priors = self.system.sys_priors`, line 49 - stored as the rows each
prior draws for a batch, i.e. `priors[i].draw_samples(num_samples)`). -/
structure OFTIInstance (nE N : ℕ) where
  state : OFTIState nE
  priors : List (Fin N → ℝ)

/-- `__init__` as a fallible constructor: the source has no failure path tied
to the prior count (no check exists anywhere in lines 46-63), so this always
returns `Except.ok`. -/
def OFTI_initE {nE N : ℕ} (priors : List (Fin N → ℝ))
    (radec2seppa : ℝ → ℝ → ℝ × ℝ)
    (quant1 quant2 quant1_err quant2_err epochs : Fin nE → ℝ)
    (radec_idx : List (Fin nE)) : Except String (OFTIInstance nE N) :=
  Except.ok ⟨OFTI_init radec2seppa quant1 quant2 quant1_err quant2_err epochs radec_idx, priors⟩

/-- Python iterable unpacking `a,b,c,d,e,f,g,h = [s for s in samples]`
(line 90): succeeds exactly when the iterable has 8 elements, otherwise
raises `ValueError`. -/
def unpack8 {α : Type} (l : List α) : Option (α × α × α × α × α × α × α × α) :=
  match l with
  | [a, b, c, d, e, f, g, h] => some (a, b, c, d, e, f, g, h)
  | _ => none

/-- `prepare_samples` including the width-generic entry code: `samples` has
`len(self.priors)` rows (line 80), and line 90 unpacks them into exactly 8
names, raising `ValueError` when the prior count differs from 8. -/
noncomputable def prepare_samplesE {m N : ℕ} (per : ℝ → ℝ → ℝ)
    (prop : ℝ → Vec8 → ℝ × ℝ) (s : OFTIState (m + 1))
    (priors : List (Fin N → ℝ)) (meananno : Fin N → ℝ) (z1 z2 : ℝ) :
    Except String (Fin 8 → Fin N → ℝ) :=
  match unpack8 priors with
  | none => Except.error "ValueError: not enough values to unpack"
  | some (r0, r1, r2, r3, r4, r5, r6, r7) =>
      Except.ok (prepare_samples per prop s
        ⟨![r0, r1, r2, r3, r4, r5, r6, r7], meananno, z1, z2⟩)

/-- Modelled from the spec: the external Orbit Propagator
`orbitize.kepler.calc_orbit` composed with `orbitize.system.radec2seppa` is
not under `src/`; the spec fixes only its interface (epoch + elements → sky
position, here already in (sep, pa) form) and the Keplerian geometry behind
scale-and-rotate.  We model the whole family of such propagators: at a fixed
orbital phase (the mean-anomaly fraction `t / period - tau`), the separation
is semi-major axis x parallax x an arbitrary shape factor of (ecc, inc, argp,
phase), and the position angle (degrees) is the longitude of ascending node
plus an arbitrary in-plane angle of the same arguments.  Every two-body
Keplerian sky projection has this form; `shape` and `inplane` stay
universally quantified in the anchor-consistency theorem. -/
noncomputable def keplerSepPa (per : ℝ → ℝ → ℝ)
    (shape inplane : ℝ → ℝ → ℝ → ℝ → ℝ) (t : ℝ) (el : Vec8) : ℝ × ℝ :=
  (el 0 * el 7 * shape (el 1) (el 4) (el 2) (t / per (el 0) (el 6) - el 5),
   degreesOf (el 3) + inplane (el 1) (el 4) (el 2) (t / per (el 0) (el 6) - el 5))

/-- Following the words of the spec for the scale-and-rotate corrections
(spec 4.1 steps 5-8): one separation offset and one position-angle offset per
batch, standard deviations the anchor's uncertainties, shared by all
candidates; per-candidate sma scaling by
`(anchor_sep_obs + offset_sep) / predicted_sep`; position-angle correction
`(anchor_pa_obs + offset_pa - predicted_pa)` added to the ascending node and
reduced mod 2 pi; the period recomputed from Kepler's third law (`per`) with
the corrected sma; tau recomputed as `anchor_epoch / period - mean_anomaly`
with the same mean-anomaly draws.  Returns the (sma, lan, tau) rows. -/
noncomputable def specScaleRotate {m N : ℕ} (per : ℝ → ℝ → ℝ)
    (prop : ℝ → Vec8 → ℝ × ℝ) (s : OFTIState (m + 1)) (inp : PrepInputs N) :
    (Fin N → ℝ) × (Fin N → ℝ) × (Fin N → ℝ) :=
  let a := argminIdx s.sep_err
  let offSep := s.sep_err a * inp.z_sep
  let offPa := s.pa_err a * inp.z_pa
  ( fun j => inp.draws 0 j *
      ((s.sep_observed a + offSep) / predSep per prop (s.epochs a) inp j)
  , fun j => npmod
      (inp.draws 3 j +
        radiansOf (s.pa_observed a + offPa - predPa per prop (s.epochs a) inp j))
      (2 * Real.pi)
  , fun j => s.epochs a /
      per (inp.draws 0 j *
        ((s.sep_observed a + offSep) / predSep per prop (s.epochs a) inp j))
        (inp.draws 6 j)
      - inp.meananno j )

/-- Concrete data for the C2 witness. -/
noncomputable def c2per : ℝ → ℝ → ℝ := fun _ _ => 1

/-- Concrete shape factor for the C2 witness. -/
noncomputable def c2shape : ℝ → ℝ → ℝ → ℝ → ℝ := fun _ _ _ _ => 1

/-- Concrete in-plane angle for the C2 witness. -/
noncomputable def c2inplane : ℝ → ℝ → ℝ → ℝ → ℝ := fun _ _ _ _ => 0

/-- Concrete observation state for the C2 witness. -/
noncomputable def c2s : OFTIState 1 :=
  ⟨fun _ => 2, fun _ => 0, fun _ => 1, fun _ => 1, fun _ => 0⟩

/-- Concrete per-call inputs for the C2 witness. -/
noncomputable def c2inp : PrepInputs 1 :=
  ⟨fun _ _ => 1, fun _ => 0, 0, 0⟩

/-- Concrete chi-square kernel for the C6 witness: every term is 2. -/
def c6chi : ChiFn 1 1 := fun _ _ _ _ _ _ _ => some 2

/-- Concrete propagator stub for the C6 / C9 / C10 witnesses. -/
def cprop : ℝ → Vec8 → ℝ × ℝ := fun _ _ => (0, 0)

/-- Concrete observation state for the C6 / C9 / C10 witnesses. -/
def czeroState : OFTIState 1 :=
  ⟨fun _ => 0, fun _ => 0, fun _ => 0, fun _ => 0, fun _ => 0⟩

/-- Seven priors (each drawing the zero row): the C9 inputs. -/
def c9priors : List (Fin 1 → ℝ) := List.replicate 7 (fun _ => 0)

/-- Identity radec→seppa stub for the C9 counterexample and witness. -/
def c9radec : ℝ → ℝ → ℝ × ℝ := fun x y => (x, y)

/-- Zero table column for the C9 counterexample and witness. -/
def c9col : Fin 1 → ℝ := fun _ => 0

/-- Concrete period function for the C9 witness. -/
def c9per : ℝ → ℝ → ℝ := fun _ _ => 1

/-! ### Helper lemmas -/

theorem npmod_nonneg (x y : ℝ) (hy : 0 < y) : 0 ≤ npmod x y := by
  have h1 : (⌊x / y⌋ : ℝ) ≤ x / y := Int.floor_le _
  have h2 : y * (⌊x / y⌋ : ℝ) ≤ y * (x / y) := mul_le_mul_of_nonneg_left h1 hy.le
  have h3 : y * (x / y) = x := by field_simp
  simp only [npmod]
  linarith

theorem npmod_lt (x y : ℝ) (hy : 0 < y) : npmod x y < y := by
  have h1 : x / y < (⌊x / y⌋ : ℝ) + 1 := Int.lt_floor_add_one _
  have h2 : y * (x / y) < y * ((⌊x / y⌋ : ℝ) + 1) := by
    exact mul_lt_mul_of_pos_left h1 hy
  have h3 : y * (x / y) = x := by field_simp
  simp only [npmod]
  nlinarith

theorem degreesOf_npmod_two_pi (x : ℝ) :
    ∃ k : ℤ, degreesOf (npmod x (2 * Real.pi)) = degreesOf x + 360 * k := by
  refine ⟨-⌊x / (2 * Real.pi)⌋, ?_⟩
  have hpi : (Real.pi : ℝ) ≠ 0 := Real.pi_ne_zero
  simp only [npmod, degreesOf]
  push_cast
  field_simp
  ring

theorem argminIdx_le {n : ℕ} (f : Fin (n + 1) → ℝ) (e : Fin (n + 1)) :
    f (argminIdx f) ≤ f e := by
  unfold argminIdx
  cases h : (List.finRange (n + 1)).argmin f with
  | none =>
      exfalso
      have h2 := List.argmin_eq_none.mp h
      have h3 : (List.finRange (n + 1)).length = n + 1 := List.length_finRange _
      rw [h2] at h3
      simp at h3
  | some a =>
      simp only [Option.getD_some]
      exact List.le_of_mem_argmin (List.mem_finRange e) (h ▸ rfl)

theorem provisionalVec_zero {N : ℕ} (per : ℝ → ℝ → ℝ) (t : ℝ) (inp : PrepInputs N)
    (j : Fin N) : provisionalVec per t inp j 0 = inp.draws 0 j := rfl

theorem provisionalVec_one {N : ℕ} (per : ℝ → ℝ → ℝ) (t : ℝ) (inp : PrepInputs N)
    (j : Fin N) : provisionalVec per t inp j 1 = inp.draws 1 j := rfl

theorem provisionalVec_two {N : ℕ} (per : ℝ → ℝ → ℝ) (t : ℝ) (inp : PrepInputs N)
    (j : Fin N) : provisionalVec per t inp j 2 = inp.draws 2 j := rfl

theorem provisionalVec_three {N : ℕ} (per : ℝ → ℝ → ℝ) (t : ℝ) (inp : PrepInputs N)
    (j : Fin N) : provisionalVec per t inp j 3 = inp.draws 3 j := rfl

theorem provisionalVec_four {N : ℕ} (per : ℝ → ℝ → ℝ) (t : ℝ) (inp : PrepInputs N)
    (j : Fin N) : provisionalVec per t inp j 4 = inp.draws 4 j := rfl

theorem provisionalVec_five {N : ℕ} (per : ℝ → ℝ → ℝ) (t : ℝ) (inp : PrepInputs N)
    (j : Fin N) : provisionalVec per t inp j 5 = tau_prescale per t inp j := rfl

theorem provisionalVec_six {N : ℕ} (per : ℝ → ℝ → ℝ) (t : ℝ) (inp : PrepInputs N)
    (j : Fin N) : provisionalVec per t inp j 6 = inp.draws 6 j := rfl

theorem provisionalVec_seven {N : ℕ} (per : ℝ → ℝ → ℝ) (t : ℝ) (inp : PrepInputs N)
    (j : Fin N) : provisionalVec per t inp j 7 = inp.draws 7 j := rfl

theorem scaleAndRotate_zero {m N : ℕ} (per : ℝ → ℝ → ℝ) (prop : ℝ → Vec8 → ℝ × ℝ)
    (a : Fin (m + 1)) (s : OFTIState (m + 1)) (inp : PrepInputs N) (j : Fin N) :
    scaleAndRotate per prop a s inp 0 j = smaNew per prop a s inp j := rfl

theorem scaleAndRotate_one {m N : ℕ} (per : ℝ → ℝ → ℝ) (prop : ℝ → Vec8 → ℝ × ℝ)
    (a : Fin (m + 1)) (s : OFTIState (m + 1)) (inp : PrepInputs N) (j : Fin N) :
    scaleAndRotate per prop a s inp 1 j = inp.draws 1 j := rfl

theorem scaleAndRotate_two {m N : ℕ} (per : ℝ → ℝ → ℝ) (prop : ℝ → Vec8 → ℝ × ℝ)
    (a : Fin (m + 1)) (s : OFTIState (m + 1)) (inp : PrepInputs N) (j : Fin N) :
    scaleAndRotate per prop a s inp 2 j = inp.draws 2 j := rfl

theorem scaleAndRotate_three {m N : ℕ} (per : ℝ → ℝ → ℝ) (prop : ℝ → Vec8 → ℝ × ℝ)
    (a : Fin (m + 1)) (s : OFTIState (m + 1)) (inp : PrepInputs N) (j : Fin N) :
    scaleAndRotate per prop a s inp 3 j = lanNew per prop a s inp j := rfl

theorem scaleAndRotate_four {m N : ℕ} (per : ℝ → ℝ → ℝ) (prop : ℝ → Vec8 → ℝ × ℝ)
    (a : Fin (m + 1)) (s : OFTIState (m + 1)) (inp : PrepInputs N) (j : Fin N) :
    scaleAndRotate per prop a s inp 4 j = inp.draws 4 j := rfl

theorem scaleAndRotate_five {m N : ℕ} (per : ℝ → ℝ → ℝ) (prop : ℝ → Vec8 → ℝ × ℝ)
    (a : Fin (m + 1)) (s : OFTIState (m + 1)) (inp : PrepInputs N) (j : Fin N) :
    scaleAndRotate per prop a s inp 5 j = tauNew per prop a s inp j := rfl

theorem scaleAndRotate_six {m N : ℕ} (per : ℝ → ℝ → ℝ) (prop : ℝ → Vec8 → ℝ × ℝ)
    (a : Fin (m + 1)) (s : OFTIState (m + 1)) (inp : PrepInputs N) (j : Fin N) :
    scaleAndRotate per prop a s inp 6 j = inp.draws 6 j := rfl

theorem scaleAndRotate_seven {m N : ℕ} (per : ℝ → ℝ → ℝ) (prop : ℝ → Vec8 → ℝ × ℝ)
    (a : Fin (m + 1)) (s : OFTIState (m + 1)) (inp : PrepInputs N) (j : Fin N) :
    scaleAndRotate per prop a s inp 7 j = inp.draws 7 j := rfl

theorem unpack8_eq_none {α : Type} (l : List α) (h : l.length ≠ 8) :
    unpack8 l = none := by
  unfold unpack8
  split
  · simp_all
  · rfl

theorem writeOrbits_ok (T : ℕ) (orbits : List Vec8) :
    ∀ (n : ℕ) (store : ℕ → Vec8), n + orbits.length ≤ T →
      ∃ store2, writeOrbits T store n orbits = Except.ok (store2, n + orbits.length) ∧
        (∀ k (hk : k < orbits.length), store2 (n + k) = orbits.get ⟨k, hk⟩) ∧
        (∀ p, p < n → store2 p = store p) := by
  induction orbits with
  | nil =>
      intro n store _
      refine ⟨store, by simp [writeOrbits], ?_, fun p _ => rfl⟩
      intro k hk
      exact absurd hk (by simp)
  | cons o rest ih =>
      intro n store h
      have hn : n < T := by
        simp only [List.length_cons] at h
        omega
      obtain ⟨st2, heq, hget, hpres⟩ :=
        ih (n + 1) (fun p => if p = n then o else store p)
          (by simp only [List.length_cons] at h; omega)
      refine ⟨st2, ?_, ?_, ?_⟩
      · have hlen : n + 1 + rest.length = n + (o :: rest).length := by
          simp only [List.length_cons]
          omega
        rw [writeOrbits, if_pos hn, heq, hlen]
      · intro k hk
        cases k with
        | zero =>
            have h0 := hpres n (by omega)
            simpa using h0
        | succ k2 =>
            have hk2 : k2 < rest.length := by
              simp only [List.length_cons] at hk
              omega
            have hv := hget k2 hk2
            have harith : n + (k2 + 1) = n + 1 + k2 := by omega
            rw [harith, hv]
            rfl
      · intro p hp
        have hpr := hpres p (by omega)
        rw [hpr]
        simp [Nat.ne_of_lt hp]

/-! ### Claim theorems -/

/-- C1 (code bug): `run_sampler` does not trim an accepted batch to the
remaining free slots.  Evaluated at `total_orbits = 1` with an iteration whose
`reject` returns two accepted orbits: the unconditional row writes of lines
208-210 index row 1 of a 1-row store, so the loop raises `IndexError` instead
of returning exactly T rows. -/
theorem run_sampler_overflow_raises :
    run_sampler 1 (fun _ => [fun _ => (1 : ℝ), fun _ => (2 : ℝ)]) 3
      = Except.error "IndexError: index out of bounds" := rfl

/-- C7: `prepare_samples` overwrites exactly rows 0 (sma), 3 (lan) and
5 (tau) with the corrected values; rows 1, 2, 4, 6, 7 (ecc, argp, inc, mtot,
plx) are returned exactly as drawn from the priors. -/
theorem prepare_samples_row_effects {m N : ℕ} (per : ℝ → ℝ → ℝ)
    (prop : ℝ → Vec8 → ℝ × ℝ) (s : OFTIState (m + 1)) (inp : PrepInputs N)
    (j : Fin N) :
    prepare_samples per prop s inp 0 j = smaNew per prop (argminIdx s.sep_err) s inp j ∧
    prepare_samples per prop s inp 3 j = lanNew per prop (argminIdx s.sep_err) s inp j ∧
    prepare_samples per prop s inp 5 j = tauNew per prop (argminIdx s.sep_err) s inp j ∧
    prepare_samples per prop s inp 1 j = inp.draws 1 j ∧
    prepare_samples per prop s inp 2 j = inp.draws 2 j ∧
    prepare_samples per prop s inp 4 j = inp.draws 4 j ∧
    prepare_samples per prop s inp 6 j = inp.draws 6 j ∧
    prepare_samples per prop s inp 7 j = inp.draws 7 j :=
  ⟨rfl, rfl, rfl, rfl, rfl, rfl, rfl, rfl⟩

/-- C3: the corrections computed by `prepare_samples` are exactly the ones
the spec describes (`specScaleRotate`): one offset per batch for separation
and one for position angle, scaled by the anchor uncertainties and shared by
all candidates; sma multiplied by (anchor_sep_obs + offset)/predicted_sep;
the position-angle correction (anchor_pa_obs + offset - predicted_pa) added
to the ascending node; the period recomputed from the corrected sma; tau
recomputed as anchor_epoch/period - mean_anomaly with the same draws. -/
theorem prepare_samples_correction_formulas {m N : ℕ} (per : ℝ → ℝ → ℝ)
    (prop : ℝ → Vec8 → ℝ × ℝ) (s : OFTIState (m + 1)) (inp : PrepInputs N)
    (j : Fin N) :
    prepare_samples per prop s inp 0 j = (specScaleRotate per prop s inp).1 j ∧
    prepare_samples per prop s inp 3 j = (specScaleRotate per prop s inp).2.1 j ∧
    prepare_samples per prop s inp 5 j = (specScaleRotate per prop s inp).2.2 j := by
  have hsma : smaNew per prop (argminIdx s.sep_err) s inp j
      = inp.draws 0 j * ((s.sep_observed (argminIdx s.sep_err)
          + s.sep_err (argminIdx s.sep_err) * inp.z_sep)
          / predSep per prop (s.epochs (argminIdx s.sep_err)) inp j) := by
    simp only [smaNew, sma_corr, sep_offset]
    ring
  have hlan : lan_corr per prop (argminIdx s.sep_err) s inp j
      = s.pa_observed (argminIdx s.sep_err)
        + s.pa_err (argminIdx s.sep_err) * inp.z_pa
        - predPa per prop (s.epochs (argminIdx s.sep_err)) inp j := by
    simp only [lan_corr, pa_offset]
    ring
  refine ⟨?_, ?_, ?_⟩
  · show smaNew per prop (argminIdx s.sep_err) s inp j = _
    rw [hsma]
    rfl
  · show lanNew per prop (argminIdx s.sep_err) s inp j = _
    rw [lanNew, hlan]
    rfl
  · show tauNew per prop (argminIdx s.sep_err) s inp j = _
    rw [tauNew, period_new, hsma]
    rfl

/-- C5: the longitude-of-ascending-node row (row 3) of every batch returned
by `prepare_samples` lies in [0, 2 pi), whatever the sign and magnitude of the
position-angle correction - and hence so does entry 3 of every orbit accepted
by `reject` from such a batch. -/
theorem lan_in_Ico {m N : ℕ} (per : ℝ → ℝ → ℝ) (prop : ℝ → Vec8 → ℝ × ℝ)
    (s : OFTIState (m + 1)) (inp : PrepInputs N) :
    (∀ j : Fin N, 0 ≤ prepare_samples per prop s inp 3 j ∧
        prepare_samples per prop s inp 3 j < 2 * Real.pi) ∧
    ∀ (chi2fn : ChiFn (m + 1) N) (sidx : List ℕ) (uniforms : Fin N → ℝ),
      ∀ o ∈ reject prop chi2fn sidx s uniforms (prepare_samples per prop s inp),
        0 ≤ o 3 ∧ o 3 < 2 * Real.pi := by
  have hpos : (0 : ℝ) < 2 * Real.pi := by positivity
  have hrow : ∀ j : Fin N, 0 ≤ prepare_samples per prop s inp 3 j ∧
      prepare_samples per prop s inp 3 j < 2 * Real.pi := by
    intro j
    have h1 : prepare_samples per prop s inp 3 j
        = npmod (inp.draws 3 j
            + radiansOf (lan_corr per prop (argminIdx s.sep_err) s inp j))
            (2 * Real.pi) := rfl
    rw [h1]
    exact ⟨npmod_nonneg _ _ hpos, npmod_lt _ _ hpos⟩
  refine ⟨hrow, ?_⟩
  intro chi2fn sidx uniforms o ho
  rcases List.mem_map.mp ho with ⟨jj, _, rfl⟩
  exact hrow jj

/-- C4: `reject` sums the per-epoch, per-quantity chi-square terms with NaN
contributing zero, sets lnp = -chi2_sum/2, accepts a candidate iff lnp
strictly exceeds the log of that candidate's own uniform draw, and returns
exactly the accepted candidates, as a filter of the input columns in
increasing original-index order. -/
theorem reject_acceptance_spec {nE N : ℕ} (prop : ℝ → Vec8 → ℝ × ℝ)
    (chi2fn : ChiFn nE N) (sidx : List ℕ) (s : OFTIState nE)
    (uniforms : Fin N → ℝ) (cfg : Fin 8 → Fin N → ℝ) :
    ∃ idx : List (Fin N),
      reject prop chi2fn sidx s uniforms cfg = idx.map (fun j => fun i => cfg i j) ∧
      idx.Pairwise (· < ·) ∧
      ∀ j : Fin N, j ∈ idx ↔
        Real.log (uniforms j) <
          -(∑ e : Fin nE, ∑ q : Fin 2,
              (chi2Terms chi2fn prop sidx s cfg e q j).getD 0) / 2 := by
  refine ⟨saved_orbit_idx chi2fn prop sidx s uniforms cfg, rfl, ?_, ?_⟩
  · exact List.Pairwise.sublist (List.filter_sublist _) (List.pairwise_lt_finRange N)
  · intro j
    simp [saved_orbit_idx, List.mem_filter, List.mem_finRange, lnpOf, chi2_sum]

/-- C6: when no candidate is accepted, `reject` returns the empty list (no
error), and the `run_sampler` loop treats that as a normal iteration: the
saved count and the store are unchanged and the loop goes on to the next
iteration instead of terminating. -/
theorem empty_acceptance_continues {nE N : ℕ} (prop : ℝ → Vec8 → ℝ × ℝ)
    (chi2fn : ChiFn nE N) (sidx : List ℕ) (s : OFTIState nE)
    (uniforms : Fin N → ℝ) (cfg : Fin 8 → Fin N → ℝ)
    (T fuel it n : ℕ) (store : ℕ → Vec8)
    (hrej : ∀ j : Fin N,
      ¬ Real.log (uniforms j) < lnpOf chi2fn prop sidx s cfg j)
    (hn : n < T) :
    reject prop chi2fn sidx s uniforms cfg = [] ∧
    runLoop T (fun _ => reject prop chi2fn sidx s uniforms cfg) (fuel + 1) it n store
      = runLoop T (fun _ => reject prop chi2fn sidx s uniforms cfg) fuel (it + 1) n store := by
  have hempty : reject prop chi2fn sidx s uniforms cfg = [] := by
    unfold reject saved_orbit_idx
    have h0 : (List.finRange N).filter
        (fun j => decide (Real.log (uniforms j) < lnpOf chi2fn prop sidx s cfg j)) = [] := by
      rw [List.filter_eq_nil_iff]
      intro j _
      simpa using hrej j
    rw [h0, List.map_nil]
  refine ⟨hempty, ?_⟩
  rw [runLoop]
  simp only [hempty, if_pos hn, List.length_nil, if_true]

/-- C10: each row of `reject`'s output is a column of its `(8, N)` input (the
output is the transposed list of accepted columns, shape `(N', 8)` with one
orbit per row, never more rows than `N`), and the `run_sampler` write loop
copies each returned row directly into consecutive rows of the output
store. -/
theorem reject_transpose_and_store_rows {nE N : ℕ} (prop : ℝ → Vec8 → ℝ × ℝ)
    (chi2fn : ChiFn nE N) (sidx : List ℕ) (s : OFTIState nE)
    (uniforms : Fin N → ℝ) (cfg : Fin 8 → Fin N → ℝ)
    (T n : ℕ) (store : ℕ → Vec8) (orbits : List Vec8)
    (hcap : n + orbits.length ≤ T) :
    (∀ o ∈ reject prop chi2fn sidx s uniforms cfg, ∃ j : Fin N, o = fun i => cfg i j) ∧
    (reject prop chi2fn sidx s uniforms cfg).length ≤ N ∧
    ∃ store2, writeOrbits T store n orbits = Except.ok (store2, n + orbits.length) ∧
      ∀ k (hk : k < orbits.length), store2 (n + k) = orbits.get ⟨k, hk⟩ := by
  refine ⟨?_, ?_, ?_⟩
  · intro o ho
    rcases List.mem_map.mp ho with ⟨j, _, rfl⟩
    exact ⟨j, rfl⟩
  · have h1 := List.length_filter_le
      (fun j => decide (Real.log (uniforms j) < lnpOf chi2fn prop sidx s cfg j))
      (List.finRange N)
    simpa [reject, saved_orbit_idx, List.length_finRange] using h1
  · obtain ⟨st2, ha, hb, _⟩ := writeOrbits_ok T orbits n store hcap
    exact ⟨st2, ha, hb⟩

/-- C8: the anchor epoch used by `prepare_samples` is determined by the state
fixed at construction - every call, whatever its random inputs, runs
scale-and-rotate with the same index `argminIdx sep_err`, and that index
attains the smallest separation uncertainty of the constructed instance. -/
theorem anchor_fixed_at_construction {m N : ℕ} (per : ℝ → ℝ → ℝ)
    (prop : ℝ → Vec8 → ℝ × ℝ) (radec2seppa : ℝ → ℝ → ℝ × ℝ)
    (q1 q2 e1 e2 ep : Fin (m + 1) → ℝ) (radec_idx : List (Fin (m + 1))) :
    (∀ inp : PrepInputs N,
        prepare_samples per prop (OFTI_init radec2seppa q1 q2 e1 e2 ep radec_idx) inp
          = scaleAndRotate per prop
              (argminIdx (OFTI_init radec2seppa q1 q2 e1 e2 ep radec_idx).sep_err)
              (OFTI_init radec2seppa q1 q2 e1 e2 ep radec_idx) inp) ∧
    ∀ e : Fin (m + 1),
      (OFTI_init radec2seppa q1 q2 e1 e2 ep radec_idx).sep_err
          (argminIdx (OFTI_init radec2seppa q1 q2 e1 e2 ep radec_idx).sep_err)
        ≤ (OFTI_init radec2seppa q1 q2 e1 e2 ep radec_idx).sep_err e :=
  ⟨fun _ => rfl, fun e => argminIdx_le _ e⟩

/-- C9 counterexample: constructing with 7 priors succeeds - `__init__`
performs no prior-count check, so construction does not fail fast. -/
theorem init_accepts_seven_priors :
    OFTI_initE c9priors c9radec c9col c9col c9col c9col c9col []
      = Except.ok ⟨OFTI_init c9radec c9col c9col c9col c9col c9col [], c9priors⟩ := rfl

/-- C9 (amended): construction succeeds for any prior count; a count other
than 8 instead surfaces as a `ValueError` at the first `prepare_samples`
call, when line 90 unpacks the sample rows into exactly 8 names - so the
mismatch does not propagate silently into the vectorized math. -/
theorem init_total_prepare_errors {m N : ℕ} (per : ℝ → ℝ → ℝ)
    (prop : ℝ → Vec8 → ℝ × ℝ) (priors : List (Fin N → ℝ))
    (radec2seppa : ℝ → ℝ → ℝ × ℝ)
    (q1 q2 e1 e2 ep : Fin (m + 1) → ℝ) (radec_idx : List (Fin (m + 1)))
    (meananno : Fin N → ℝ) (z1 z2 : ℝ)
    (h : priors.length ≠ 8) :
    OFTI_initE priors radec2seppa q1 q2 e1 e2 ep radec_idx
      = Except.ok ⟨OFTI_init radec2seppa q1 q2 e1 e2 ep radec_idx, priors⟩ ∧
    prepare_samplesE per prop (OFTI_init radec2seppa q1 q2 e1 e2 ep radec_idx)
        priors meananno z1 z2
      = Except.error "ValueError: not enough values to unpack" := by
  refine ⟨rfl, ?_⟩
  have hu : unpack8 priors = none := unpack8_eq_none priors h
  unfold prepare_samplesE
  rw [hu]

/-- C2: anchor consistency by construction, over the spec-modelled family of
Keplerian propagators `keplerSepPa` (arbitrary `per`, `shape`, `inplane`):
whenever the predicted anchor separation of a candidate is nonzero,
propagating its corrected element vector to the anchor epoch yields exactly
separation = anchor observed separation + the batch's shared separation
offset, and position angle = anchor observed position angle + the batch's
shared position-angle offset, up to a whole number of full turns (360 k,
from the mod-2 pi reduction of the ascending node). -/
theorem prepare_samples_anchor_consistency {m N : ℕ}
    (per : ℝ → ℝ → ℝ) (shape inplane : ℝ → ℝ → ℝ → ℝ → ℝ)
    (s : OFTIState (m + 1)) (inp : PrepInputs N) (j : Fin N)
    (hsep : predSep per (keplerSepPa per shape inplane)
      (s.epochs (argminIdx s.sep_err)) inp j ≠ 0) :
    (keplerSepPa per shape inplane (s.epochs (argminIdx s.sep_err))
        (fun i => prepare_samples per (keplerSepPa per shape inplane) s inp i j)).1
      = s.sep_observed (argminIdx s.sep_err)
        + sep_offset s (argminIdx s.sep_err) inp
    ∧ ∃ k : ℤ,
      (keplerSepPa per shape inplane (s.epochs (argminIdx s.sep_err))
          (fun i => prepare_samples per (keplerSepPa per shape inplane) s inp i j)).2
        = s.pa_observed (argminIdx s.sep_err)
          + pa_offset s (argminIdx s.sep_err) inp + 360 * k := by
  have hP : predSep per (keplerSepPa per shape inplane)
      (s.epochs (argminIdx s.sep_err)) inp j
      = inp.draws 0 j * inp.draws 7 j *
        shape (inp.draws 1 j) (inp.draws 4 j) (inp.draws 2 j) (inp.meananno j) := by
    simp only [predSep, keplerSepPa, provisionalVec_zero, provisionalVec_one,
      provisionalVec_two, provisionalVec_four, provisionalVec_five,
      provisionalVec_six, provisionalVec_seven, tau_prescale, period_prescale,
      sub_sub_cancel]
  have hQ : predPa per (keplerSepPa per shape inplane)
      (s.epochs (argminIdx s.sep_err)) inp j
      = degreesOf (inp.draws 3 j) +
        inplane (inp.draws 1 j) (inp.draws 4 j) (inp.draws 2 j) (inp.meananno j) := by
    simp only [predPa, keplerSepPa, provisionalVec_zero, provisionalVec_one,
      provisionalVec_two, provisionalVec_three, provisionalVec_four,
      provisionalVec_five, provisionalVec_six, provisionalVec_seven,
      tau_prescale, period_prescale, sub_sub_cancel]
  constructor
  · have hmain : (keplerSepPa per shape inplane (s.epochs (argminIdx s.sep_err))
        (fun i => prepare_samples per (keplerSepPa per shape inplane) s inp i j)).1
        = smaNew per (keplerSepPa per shape inplane) (argminIdx s.sep_err) s inp j
          * inp.draws 7 j *
          shape (inp.draws 1 j) (inp.draws 4 j) (inp.draws 2 j) (inp.meananno j) := by
      simp only [keplerSepPa, prepare_samples, scaleAndRotate_zero,
        scaleAndRotate_one, scaleAndRotate_two, scaleAndRotate_four,
        scaleAndRotate_five, scaleAndRotate_six, scaleAndRotate_seven,
        tauNew, period_new, sub_sub_cancel]
    have hP2 : inp.draws 0 j * inp.draws 7 j *
        shape (inp.draws 1 j) (inp.draws 4 j) (inp.draws 2 j) (inp.meananno j) ≠ 0 := by
      rw [← hP]
      exact hsep
    rw [hmain, smaNew, sma_corr, hP]
    field_simp
    ring
  · obtain ⟨z, hz⟩ := degreesOf_npmod_two_pi
      (inp.draws 3 j + radiansOf
        (lan_corr per (keplerSepPa per shape inplane) (argminIdx s.sep_err) s inp j))
    refine ⟨z, ?_⟩
    have hmain : (keplerSepPa per shape inplane (s.epochs (argminIdx s.sep_err))
        (fun i => prepare_samples per (keplerSepPa per shape inplane) s inp i j)).2
        = degreesOf (lanNew per (keplerSepPa per shape inplane)
            (argminIdx s.sep_err) s inp j)
          + inplane (inp.draws 1 j) (inp.draws 4 j) (inp.draws 2 j) (inp.meananno j) := by
      simp only [keplerSepPa, prepare_samples, scaleAndRotate_zero,
        scaleAndRotate_one, scaleAndRotate_two, scaleAndRotate_three,
        scaleAndRotate_four, scaleAndRotate_five, scaleAndRotate_six,
        scaleAndRotate_seven, tauNew, period_new, sub_sub_cancel]
    rw [hmain, lanNew, hz, lan_corr, hQ]
    have hpi : (Real.pi : ℝ) ≠ 0 := Real.pi_ne_zero
    simp only [degreesOf, radiansOf]
    field_simp
    ring

/-- Witness for C2 at a concrete instance (one epoch, one candidate, unit
draws): the predicted anchor separation is 1 and anchor consistency holds. -/
theorem prepare_samples_anchor_consistency_witness :
    predSep c2per (keplerSepPa c2per c2shape c2inplane)
        (c2s.epochs (argminIdx c2s.sep_err)) c2inp 0 ≠ 0 ∧
    ((keplerSepPa c2per c2shape c2inplane (c2s.epochs (argminIdx c2s.sep_err))
        (fun i => prepare_samples c2per (keplerSepPa c2per c2shape c2inplane) c2s c2inp i 0)).1
      = c2s.sep_observed (argminIdx c2s.sep_err)
        + sep_offset c2s (argminIdx c2s.sep_err) c2inp
    ∧ ∃ k : ℤ,
      (keplerSepPa c2per c2shape c2inplane (c2s.epochs (argminIdx c2s.sep_err))
          (fun i => prepare_samples c2per (keplerSepPa c2per c2shape c2inplane) c2s c2inp i 0)).2
        = c2s.pa_observed (argminIdx c2s.sep_err)
          + pa_offset c2s (argminIdx c2s.sep_err) c2inp + 360 * k) := by
  have hsep : predSep c2per (keplerSepPa c2per c2shape c2inplane)
      (c2s.epochs (argminIdx c2s.sep_err)) c2inp 0 ≠ 0 := by
    simp [predSep, keplerSepPa, provisionalVec_zero, provisionalVec_seven,
      c2per, c2shape, c2s, c2inp]
  exact ⟨hsep, prepare_samples_anchor_consistency c2per c2shape c2inplane c2s c2inp 0 hsep⟩

/-- Witness for C6 at a concrete instance (every chi-square term 2, uniform
draw 1): nothing is accepted and the loop carries on with unchanged state. -/
theorem empty_acceptance_continues_witness :
    reject cprop c6chi [] czeroState (fun _ => 1) (fun _ _ => 0) = [] ∧
    runLoop 1 (fun _ => reject cprop c6chi [] czeroState (fun _ => 1) (fun _ _ => 0))
        1 0 0 (fun _ _ => 0)
      = runLoop 1 (fun _ => reject cprop c6chi [] czeroState (fun _ => 1) (fun _ _ => 0))
        0 1 0 (fun _ _ => 0) := by
  have hrej : ∀ j : Fin 1,
      ¬ Real.log ((fun _ : Fin 1 => (1 : ℝ)) j)
        < lnpOf c6chi cprop [] czeroState (fun _ _ => 0) j := by
    intro j
    norm_num [lnpOf, chi2_sum, chi2Terms, c6chi, Fin.sum_univ_one,
      Fin.sum_univ_two, Real.log_one]
  exact empty_acceptance_continues cprop c6chi [] czeroState (fun _ => 1)
    (fun _ _ => 0) 1 0 0 0 (fun _ _ => 0) hrej (by norm_num)

/-- Witness for C10 at a concrete instance: one orbit written into row 0 of a
2-row store, and the transposition facts for a concrete reject call. -/
theorem reject_transpose_and_store_rows_witness :
    (∀ o ∈ reject cprop c6chi [] czeroState (fun _ => 1) (fun _ _ => 0),
        ∃ j : Fin 1, o = fun i => (fun (_ : Fin 8) (_ : Fin 1) => (0 : ℝ)) i j) ∧
    (reject cprop c6chi [] czeroState (fun _ => 1) (fun _ _ => 0)).length ≤ 1 ∧
    ∃ store2, writeOrbits 2 (fun _ _ => 0) 0 [fun _ => 5]
        = Except.ok (store2, 0 + ([fun _ => (5 : ℝ)] : List Vec8).length) ∧
      ∀ k (hk : k < ([fun _ => (5 : ℝ)] : List Vec8).length),
        store2 (0 + k) = ([fun _ => (5 : ℝ)] : List Vec8).get ⟨k, hk⟩ :=
  reject_transpose_and_store_rows cprop c6chi [] czeroState (fun _ => 1)
    (fun _ _ => 0) 2 0 (fun _ _ => 0) [fun _ => 5] (by norm_num)

/-- Witness for C9 (amended) at the concrete 7-prior instance. -/
theorem init_total_prepare_errors_witness :
    c9priors.length ≠ 8 ∧
    (OFTI_initE c9priors c9radec c9col c9col c9col c9col c9col []
        = Except.ok ⟨OFTI_init c9radec c9col c9col c9col c9col c9col [], c9priors⟩ ∧
      prepare_samplesE c9per cprop (OFTI_init c9radec c9col c9col c9col c9col c9col [])
          c9priors c9col 0 0
        = Except.error "ValueError: not enough values to unpack") := by
  have h : c9priors.length ≠ 8 := by norm_num [c9priors]
  exact ⟨h, init_total_prepare_errors c9per cprop c9priors c9radec c9col c9col
    c9col c9col c9col [] c9col 0 0 h⟩

end Orbitize
